import Mathlib

/-!
Verification of the `folderwatch` service of the quill repository: a shallow
embedding of the watch-folder runtime (stability prober, per-folder runner,
importer, and the runtime registry) together with theorems checking the
natural-language specification against the code.

External effects (filesystem stat results, repository writes, the task queue,
profile lookups) are represented by explicit oracle parameters; machine state
(the registry maps, the job store, the upload directory) is passed explicitly.
-/

set_option autoImplicit false

namespace Folderwatch

/-! ## Constants (from the `const` block of the folderwatch package) -/

/-! ## Stability prober (`waitForStableFile`)

A poll is one `os.Stat` call.  The sequence of stat results observed by the
prober is an oracle `polls : Nat → StatResult`. -/

/-! ## Association-list helpers

The Go `map`s of the service (`runners`, `statuses`, per-runner `timers` and
`imported`) are embedded as association lists with last-write-wins update. -/

/-! ## Path helpers (`filepath.Ext`, `strings.ToLower`, `filepath.Base`) -/

/-! ## Extension filter and event handling -/

/-! ## Jobs, users, profiles, runtime status -/

/-! ## Importer world and oracles -/

/-! ## The candidate-processing path of a runner -/

/-! ## Registry (Service) state and lifecycle operations -/

/-! ## Sample concrete values used by witnesses -/

/-! ## Helper lemmas on association lists -/

def fileDebounceDelaySeconds : Nat := 2

def stabilityIntervalSeconds : Nat := 1

def stabilityChecks : Nat := 3

def importTimeoutMinutes : Nat := 5

def minimumAudioBytes : Int := 1

/-- Outcome of one `os.Stat` call on the candidate path. -/
inductive StatResult where
  | notExist
  | otherError
  | dir
  | file (size modUnix : Int)
deriving DecidableEq, Repr

/-- The error cases `waitForStableFile` can report: the stat error is passed
through (with `os.ErrNotExist` kept distinguishable via `errors.Is`), a
directory is rejected, and exhausting the poll budget is a timeout. -/
inductive StableError where
  | notFound
  | statError
  | isDirError
  | timeout
deriving DecidableEq, Repr

/-- `(size, modTime.UnixNano)` signature of a stabilized file. -/
structure fileSignature where
  Size : Int
  ModUnix : Int
deriving DecidableEq, Repr

/-- The loop body of `waitForStableFile`: `fuel` iterations remain, `i` is the
current poll index, `prevSize`/`prevModUnix` are the previous observation
(initially the `-1` sentinels) and `stableReads` the consecutive-unchanged
counter. -/
def waitAux (polls : Nat → StatResult) :
    Nat → Nat → Int → Int → Nat → Except StableError fileSignature
  | 0, _, _, _, _ => .error .timeout
  | fuel + 1, i, prevSize, prevModUnix, stableReads =>
    match polls i with
    | .notExist => .error .notFound
    | .otherError => .error .statError
    | .dir => .error .isDirError
    | .file size modUnix =>
      let stableReads' := if size = prevSize ∧ modUnix = prevModUnix then stableReads + 1 else 0
      if stableReads' ≥ stabilityChecks ∧ size ≥ minimumAudioBytes then
        .ok ⟨size, modUnix⟩
      else
        waitAux polls fuel (i + 1) size modUnix stableReads'

/-- `waitForStableFile` from the source: at most `stabilityChecks + 2` polls,
starting from the two `-1` sentinels with a zero counter. -/
def waitForStableFile (polls : Nat → StatResult) : Except StableError fileSignature :=
  waitAux polls (stabilityChecks + 2) 0 (-1) (-1) 0

/-- Modelled from the spec: the stability algorithm as §4.3 words it — count
consecutive polls where size and modification time are both unchanged from the
previous poll (the first poll has no previous observation, kept as an
`Option`), declare stability when the count reaches the threshold and the size
is at least the minimum, and give up after `stabilityChecks + 2` polls. -/
def stabilitySpecAux (polls : Nat → StatResult) :
    Nat → Nat → Option (Int × Int) → Nat → Except StableError fileSignature
  | 0, _, _, _ => .error .timeout
  | fuel + 1, i, prev, count =>
    match polls i with
    | .notExist => .error .notFound
    | .otherError => .error .statError
    | .dir => .error .isDirError
    | .file size modUnix =>
      let count' := if prev = some (size, modUnix) then count + 1 else 0
      if count' ≥ stabilityChecks ∧ size ≥ minimumAudioBytes then
        .ok ⟨size, modUnix⟩
      else
        stabilitySpecAux polls fuel (i + 1) (some (size, modUnix)) count'

/-- Modelled from the spec: entry point of the spec-side stability algorithm. -/
def stabilitySpec (polls : Nat → StatResult) : Except StableError fileSignature :=
  stabilitySpecAux polls (stabilityChecks + 2) 0 none 0

def alookup {κ α : Type} [DecidableEq κ] (l : List (κ × α)) (k : κ) : Option α :=
  (l.find? (fun p => p.1 = k)).map (fun p => p.2)

def aset {κ α : Type} [DecidableEq κ] (l : List (κ × α)) (k : κ) (v : α) : List (κ × α) :=
  if (l.find? (fun p => p.1 = k)).isSome then
    l.map (fun p => if p.1 = k then (k, v) else p)
  else
    l ++ [(k, v)]

def aremove {κ α : Type} [DecidableEq κ] (l : List (κ × α)) (k : κ) : List (κ × α) :=
  l.filter (fun p => p.1 ≠ k)

/-- Go `filepath.Ext` scans the path backwards, stopping at a path separator,
and returns the suffix from the final dot on.  `acc` holds the characters
already passed over, in forward order. -/
def extAux (acc : List Char) : List Char → List Char
  | [] => []
  | c :: rest =>
    if c = '/' then []
    else if c = '.' then c :: acc
    else extAux (c :: acc) rest

def filepathExt (path : String) : String :=
  String.mk (extAux [] path.data.reverse)

/-- ASCII lowering, as applied by `strings.ToLower` to the extension set in
play (every supported extension is plain ASCII). -/
def toLowerChar (c : Char) : Char :=
  if 'A' ≤ c ∧ c ≤ 'Z' then Char.ofNat (c.toNat + 32) else c

def stringToLower (s : String) : String :=
  String.mk (s.data.map toLowerChar)

/-- Strips trailing separators, for Go `filepath.Base` (list given reversed). -/
def dropLeadingSlashes : List Char → List Char
  | [] => []
  | c :: rest => if c = '/' then dropLeadingSlashes rest else c :: rest

/-- Takes the final path element (list given reversed, result reversed). -/
def takeUntilSlash : List Char → List Char
  | [] => []
  | c :: rest => if c = '/' then [] else c :: takeUntilSlash rest

/-- Go `filepath.Base`: empty path gives a dot, an all-separator path gives
the separator, otherwise the last element with trailing separators removed. -/
def filepathBase (path : String) : String :=
  if path = "" then "."
  else
    let stripped := dropLeadingSlashes path.data.reverse
    if stripped = [] then "/"
    else String.mk (takeUntilSlash stripped).reverse

def watchableExtensions : List String :=
  [".mp3", ".wav", ".flac", ".m4a", ".aac", ".ogg", ".wma", ".aiff",
   ".mp4", ".mov", ".mkv", ".webm", ".avi"]

/-- `isWatchableAudioFile` from the source: the lowered `filepath.Ext` of the
path must be one of the supported media extensions. -/
def isWatchableAudioFile (path : String) : Bool :=
  watchableExtensions.contains (stringToLower (filepathExt path))

/-- The `fsnotify` operation bits consulted by `handleEvent`. -/
structure FsEvent where
  name : String
  isCreate : Bool
  isWrite : Bool
deriving DecidableEq, Repr

/-- Outcome of the `os.Stat` performed on a create event's path. -/
inductive StatInfo where
  | statErr
  | statFile
  | statDir
deriving DecidableEq, Repr

/-- What `handleEvent` does with one event: attach a watch to a new
subdirectory, ignore the event, or schedule a debounced import. -/
inductive EventAction where
  | addWatch
  | ignore
  | schedule
deriving DecidableEq, Repr

/-- `folderRunner.handleEvent` from the source, as a decision function: the
directory branch fires on a create event whose path stats as a directory when
the folder is recursive; events with neither create nor write bits are
dropped; then the extension filter gates `scheduleImport`. -/
def handleEvent (recursive : Bool) (stat : StatInfo) (e : FsEvent) : EventAction :=
  if e.isCreate && (stat = .statDir) && recursive then .addWatch
  else if !e.isCreate && !e.isWrite then .ignore
  else if !(isWatchableAudioFile e.name) then .ignore
  else .schedule

/-- `folderRunner.scheduleImport` on the timers map: stop any pending timer
for the path and store the fresh one (timers are identified by tokens). -/
def scheduleImport (timers : List (String × Nat)) (path : String) (newTimer : Nat) :
    List (String × Nat) :=
  aset timers path newTimer

inductive JobStatus where
  | uploaded
  | pending
  | processing
  | completed
  | failed
deriving DecidableEq, Repr

/-- The single field of the transcription parameters consulted by this
package (`profile.Parameters.Diarize`); the rest of the parameter record is
carried opaquely as a tag. -/
structure WhisperXParams where
  Diarize : Bool
  tag : Nat
deriving DecidableEq, Repr

def defaultParams : WhisperXParams := ⟨false, 0⟩

/-- The fields of `models.TranscriptionJob` touched by the importer. -/
structure TranscriptionJob where
  ID : String
  AudioPath : String
  Status : JobStatus
  Title : String
  Parameters : WhisperXParams
  Diarization : Bool
deriving DecidableEq, Repr

structure User where
  AutoTranscriptionEnabled : Bool
  DefaultProfileID : Option Nat
deriving DecidableEq, Repr

structure TranscriptionProfile where
  ID : Nat
  Parameters : WhisperXParams
deriving DecidableEq, Repr

/-- In-memory per-folder runtime status (`runtimeStatus` in the source);
`LastImportedAt` is a unix timestamp. -/
structure runtimeStatus where
  Active : Bool
  LastRuntimeError : String
  LastImportedAt : Option Int
  LastImportedFile : String
deriving DecidableEq, Repr

/-- The Go zero value a map read yields for an absent folder id. -/
def emptyStatus : runtimeStatus := ⟨false, "", none, ""⟩

structure Config where
  UploadDir : String
deriving DecidableEq, Repr

/-- Mutable state the import path touches: the managed upload directory's
files, the persisted job records, the service's status map and the runner's
imported-signature map. -/
structure World where
  uploadFiles : List String
  jobs : List TranscriptionJob
  statuses : List (Nat × runtimeStatus)
  imported : List (String × fileSignature)
deriving DecidableEq, Repr

/-- Outcome of `copyFile`: success, failure before the destination was
created, or failure after `os.Create` already produced a (partial) file. -/
inductive CopyResult where
  | ok
  | errNoFile
  | errPartial
deriving DecidableEq, Repr

/-- Oracle outcomes for the external effects of one import attempt. -/
structure ImportEnv where
  statSource : StatResult
  mkdirOk : Bool
  jobID : String
  copyResult : CopyResult
  createOk : Bool
  userResult : Option User
  profileByID : Nat → Option TranscriptionProfile
  defaultProfile : Option TranscriptionProfile
  firstProfile : Option TranscriptionProfile
  updateOk : Bool
  rollbackUpdateOk : Bool
  enqueueOk : Bool
  now : Int

def msgAccessSource : String := "failed to access source file"

def msgSourceIsDir : String := "source path is a directory"

def msgUnsupportedType : String := "unsupported file type"

def msgMkdirFailed : String := "failed to create upload directory"

def msgCopyFailed : String := "failed to copy file for import"

def msgCreateJobFailed : String := "failed to create transcription job"

/-- `jobRepo.Update`: replace the stored record with the same id. -/
def updateJob (jobs : List TranscriptionJob) (job : TranscriptionJob) :
    List TranscriptionJob :=
  jobs.map (fun j => if j.ID = job.ID then job else j)

/-- `Service.maybeQueueAutoTranscription` from the source: consult the user's
auto-transcription flag, resolve a profile through the three fallbacks, flip
the job to pending and persist, then enqueue — rolling the status back to
uploaded (and persisting best-effort) when the persist or the enqueue fails.
Returns the job store plus the final in-memory job value. -/
def maybeQueueAutoTranscription (env : ImportEnv) (jobs : List TranscriptionJob)
    (job : TranscriptionJob) : List TranscriptionJob × TranscriptionJob :=
  match env.userResult with
  | none => (jobs, job)
  | some user =>
    if !user.AutoTranscriptionEnabled then (jobs, job)
    else
      let fromUser : Option TranscriptionProfile :=
        match user.DefaultProfileID with
        | some pid => env.profileByID pid
        | none => none
      let withDefault : Option TranscriptionProfile :=
        match fromUser with
        | some p => some p
        | none => env.defaultProfile
      let resolved : Option TranscriptionProfile :=
        match withDefault with
        | some p => some p
        | none => env.firstProfile
      match resolved with
      | none => (jobs, job)
      | some profile =>
        let job := { job with
          Parameters := profile.Parameters
          Diarization := profile.Parameters.Diarize
          Status := .pending }
        if !env.updateOk then
          let job := { job with Status := .uploaded }
          if env.rollbackUpdateOk then (updateJob jobs job, job) else (jobs, job)
        else
          let jobs := updateJob jobs job
          if env.enqueueOk then (jobs, job)
          else
            let job := { job with Status := .uploaded }
            if env.rollbackUpdateOk then (updateJob jobs job, job) else (jobs, job)

/-- `Service.importFile` from the source: stat and vet the source path, ensure
the upload directory, copy the bytes to `uploadDir/jobID+ext`, create the job
record (removing the copied file if that fails), then hand off to
`maybeQueueAutoTranscription`. -/
def importFile (cfg : Config) (env : ImportEnv) (w : World) (sourcePath : String) :
    Except String Unit × World :=
  match env.statSource with
  | .notExist => (.error msgAccessSource, w)
  | .otherError => (.error msgAccessSource, w)
  | .dir => (.error msgSourceIsDir, w)
  | .file _ _ =>
    if !(isWatchableAudioFile sourcePath) then (.error msgUnsupportedType, w)
    else if !env.mkdirOk then (.error msgMkdirFailed, w)
    else
      let ext := stringToLower (filepathExt sourcePath)
      let destPath := cfg.UploadDir ++ "/" ++ env.jobID ++ ext
      match env.copyResult with
      | .errNoFile => (.error msgCopyFailed, w)
      | .errPartial => (.error msgCopyFailed, { w with uploadFiles := w.uploadFiles ++ [destPath] })
      | .ok =>
        let w := { w with uploadFiles := w.uploadFiles ++ [destPath] }
        let job : TranscriptionJob :=
          ⟨env.jobID, destPath, .uploaded, filepathBase sourcePath, defaultParams, false⟩
        if !env.createOk then
          (.error msgCreateJobFailed, { w with uploadFiles := w.uploadFiles.erase destPath })
        else
          let w := { w with jobs := w.jobs ++ [job] }
          (.ok (), { w with jobs := (maybeQueueAutoTranscription env w.jobs job).1 })

/-- Error strings produced by `waitForStableFile`, as recorded by
`markRuntimeError` for the cases that are not silently skipped. -/
def stableErrorMessage : StableError → String
  | .notFound => "file does not exist"
  | .statError => "stat failed"
  | .isDirError => "cannot import directory"
  | .timeout => "file did not stabilize before timeout"

/-- `folderRunner.wasImported`: the signature recorded for the path equals the
freshly observed one. -/
def wasImported (imported : List (String × fileSignature)) (path : String)
    (signature : fileSignature) : Bool :=
  match alookup imported path with
  | some prev => prev = signature
  | none => false

/-- `folderRunner.recordImported`. -/
def recordImported (imported : List (String × fileSignature)) (path : String)
    (signature : fileSignature) : List (String × fileSignature) :=
  aset imported path signature

/-- `Service.setStatus` applied to a world's status map: read (zero value when
absent), update, write back. -/
def setStatusW (statuses : List (Nat × runtimeStatus)) (folderID : Nat)
    (update : runtimeStatus → runtimeStatus) : List (Nat × runtimeStatus) :=
  aset statuses folderID (update ((alookup statuses folderID).getD emptyStatus))

/-- `Service.markRuntimeError` (the error is always non-nil on this path). -/
def markRuntimeErrorW (w : World) (folderID : Nat) (msg : String) : World :=
  let statuses := setStatusW w.statuses folderID (fun st => { st with LastRuntimeError := msg })
  { w with statuses := statuses }

/-- `Service.markImported`: clear the error, stamp the import time and file. -/
def markImportedW (w : World) (folderID : Nat) (sourcePath : String) (now : Int) : World :=
  let statuses := setStatusW w.statuses folderID (fun st =>
    { st with
      LastRuntimeError := ""
      LastImportedAt := some now
      LastImportedFile := sourcePath })
  { w with statuses := statuses }

/-- `folderRunner.processCandidate` from the source: probe for stability
(skipping silently on a not-found stat), skip an already-imported signature,
import, and on success record the signature and mark the import. -/
def processCandidate (polls : Nat → StatResult) (cfg : Config) (env : ImportEnv)
    (folderID : Nat) (path : String) (w : World) : World :=
  match waitForStableFile polls with
  | .error e =>
    if e = .notFound then w
    else markRuntimeErrorW w folderID (stableErrorMessage e)
  | .ok signature =>
    if wasImported w.imported path signature then w
    else
      match importFile cfg env w path with
      | (.error msg, w') => markRuntimeErrorW w' folderID msg
      | (.ok _, w') =>
        let w'' := { w' with imported := recordImported w'.imported path signature }
        markImportedW w'' folderID path env.now

/-- The fields of `models.WatchedFolder` used by the service. -/
structure WatchedFolder where
  ID : Nat
  UserID : Nat
  Path : String
  Recursive : Bool
  Enabled : Bool
deriving DecidableEq, Repr

/-- A `folderRunner` as seen by the registry: its folder snapshot, an identity
token distinguishing runner objects, and whether `stop()` has been called. -/
structure folderRunner where
  folder : WatchedFolder
  rid : Nat
  stopped : Bool
deriving DecidableEq, Repr

/-- The registry's shared state: the persisted folder rows (the repository,
treated as an in-memory table) and the two in-memory maps. -/
structure ServiceState where
  folders : List WatchedFolder
  runners : List (Nat × folderRunner)
  statuses : List (Nat × runtimeStatus)
deriving DecidableEq, Repr

/-- The service-level error taxonomy surfaced by the CRUD operations. -/
inductive ServiceError where
  | invalidPath (msg : String)
  | alreadyExists
  | notFound
  | startFailed (msg : String)
deriving DecidableEq, Repr

/-- `FolderView` from the source: persisted config merged with live status. -/
structure FolderView where
  Folder : WatchedFolder
  Active : Bool
  LastRuntimeError : String
  LastImportedAt : Option Int
  LastImportedFile : String
deriving DecidableEq, Repr

/-- `watchedFolderRepository.FindByUserAndPath`. -/
def findByUserAndPath (folders : List WatchedFolder) (userID : Nat) (path : String) :
    Option WatchedFolder :=
  folders.find? (fun f => f.UserID = userID ∧ f.Path = path)

/-- `watchedFolderRepository.FindByUserAndID`. -/
def findByUserAndID (folders : List WatchedFolder) (userID : Nat) (id : Nat) :
    Option WatchedFolder :=
  folders.find? (fun f => f.ID = id ∧ f.UserID = userID)

/-- `watchedFolderRepository.FindByUser`: the user's rows ordered by path. -/
def FindByUser (folders : List WatchedFolder) (userID : Nat) : List WatchedFolder :=
  List.insertionSort (fun a b => a.Path ≤ b.Path)
    (folders.filter (fun f => f.UserID = userID))

/-- `folderRepo.Update`: replace the row with the same id. -/
def updateFolder (folders : List WatchedFolder) (folder : WatchedFolder) :
    List WatchedFolder :=
  folders.map (fun g => if g.ID = folder.ID then folder else g)

/-- `folderRepo.Delete`: drop the row with the given id. -/
def deleteFolder (folders : List WatchedFolder) (id : Nat) : List WatchedFolder :=
  folders.filter (fun f => f.ID ≠ id)

/-- `Service.getStatus`: a map read, yielding the zero value when absent. -/
def getStatus (s : ServiceState) (folderID : Nat) : runtimeStatus :=
  (alookup s.statuses folderID).getD emptyStatus

/-- `Service.clearStatus`. -/
def clearStatus (s : ServiceState) (folderID : Nat) : ServiceState :=
  { s with statuses := aremove s.statuses folderID }

/-- Lines 315–328 of `startRunner`: the store step after `runner.start()`
succeeded, re-checking the registry under the lock; a racing winner already in
the map means the fresh runner is stopped and discarded, otherwise the runner
is stored and the status becomes active with a cleared error.  Returns the
final state together with the fresh runner object (its `stopped` flag records
whether `runner.stop()` was invoked). -/
def startRunnerFinish (s : ServiceState) (runner : folderRunner) :
    ServiceState × folderRunner :=
  match alookup s.runners runner.folder.ID with
  | some _ => (s, { runner with stopped := true })
  | none =>
    let status := getStatus s runner.folder.ID
    let status := { status with Active := true, LastRuntimeError := "" }
    ({ s with
        runners := aset s.runners runner.folder.ID runner
        statuses := aset s.statuses runner.folder.ID status }, runner)

/-- `Service.startRunner` from the source, sequentially: if a runner already
exists the status is merely re-activated; otherwise a fresh runner is built
and started (`startOk` is the oracle for watcher creation plus the initial
path attach, `errMsg` its error), a failure recording an inactive status with
the error, and a success storing the runner via `startRunnerFinish`. -/
def startRunner (startOk : Bool) (errMsg : String) (rid : Nat)
    (s : ServiceState) (folder : WatchedFolder) : ServiceState × Except String Unit :=
  match alookup s.runners folder.ID with
  | some _ =>
    let status := getStatus s folder.ID
    ({ s with statuses := aset s.statuses folder.ID { status with Active := true } }, .ok ())
  | none =>
    let runner : folderRunner := ⟨folder, rid, false⟩
    if startOk then
      ((startRunnerFinish s runner).1, .ok ())
    else
      let status := getStatus s folder.ID
      let status := { status with Active := false, LastRuntimeError := errMsg }
      ({ s with statuses := aset s.statuses folder.ID status }, .error errMsg)

/-- `Service.stopRunner`: detach the runner from the map and force the status
inactive (the runner object itself is then stopped outside the lock). -/
def stopRunner (s : ServiceState) (folderID : Nat) : ServiceState :=
  let status := getStatus s folderID
  { s with
      runners := aremove s.runners folderID
      statuses := aset s.statuses folderID { status with Active := false } }

/-- `Service.getFolderView`: re-read the row, merge with status, forcing
`Active` off for a disabled folder. -/
def getFolderView (s : ServiceState) (userID folderID : Nat) : Option FolderView :=
  match findByUserAndID s.folders userID folderID with
  | none => none
  | some folder =>
    let status := getStatus s folderID
    let status := if folder.Enabled then status else { status with Active := false }
    some ⟨folder, status.Active, status.LastRuntimeError,
          status.LastImportedAt, status.LastImportedFile⟩

/-- The trailing `return s.getFolderView(...)` of the CRUD operations: a
missing row surfaces as the repository's not-found error. -/
def finishView (s : ServiceState) (userID folderID : Nat) :
    ServiceState × Except ServiceError FolderView :=
  match getFolderView s userID folderID with
  | some v => (s, .ok v)
  | none => (s, .error .notFound)

/-- Oracle outcomes for one `CreateUserFolder` call: the result of
`normalizeFolderPath` (filesystem-dependent), the id the store assigns to the
new row, and the runner-start oracle. -/
structure CreateEnv where
  normResult : Except String String
  newID : Nat
  startOk : Bool
  startErrMsg : String
  rid : Nat

/-- `Service.CreateUserFolder` from the source: normalize, reject a duplicate
(owner, path), persist, and when enabled start a runner — deleting the row
and clearing the status if the start fails. -/
def CreateUserFolder (env : CreateEnv) (s : ServiceState) (userID : Nat)
    (recursive enabled : Bool) : ServiceState × Except ServiceError FolderView :=
  match env.normResult with
  | .error msg => (s, .error (.invalidPath msg))
  | .ok normalizedPath =>
    match findByUserAndPath s.folders userID normalizedPath with
    | some _ => (s, .error .alreadyExists)
    | none =>
      let folder : WatchedFolder := ⟨env.newID, userID, normalizedPath, recursive, enabled⟩
      let s1 : ServiceState := { s with folders := s.folders ++ [folder] }
      if folder.Enabled then
        match startRunner env.startOk env.startErrMsg env.rid s1 folder with
        | (s2, .ok _) => finishView s2 userID folder.ID
        | (s2, .error e) =>
          let s3 : ServiceState := { s2 with folders := deleteFolder s2.folders folder.ID }
          (clearStatus s3 folder.ID, .error (.startFailed e))
      else
        finishView s1 userID folder.ID

/-- Oracle outcomes for one `SetUserFolderEnabled` call. -/
structure ToggleEnv where
  startOk : Bool
  startErrMsg : String
  rid : Nat

/-- `Service.SetUserFolderEnabled` from the source: no-op view when the flag
is unchanged; otherwise persist the flip and start or stop the runner, a
failed start reverting the flag to disabled. -/
def SetUserFolderEnabled (env : ToggleEnv) (s : ServiceState) (userID folderID : Nat)
    (enabled : Bool) : ServiceState × Except ServiceError FolderView :=
  match findByUserAndID s.folders userID folderID with
  | none => (s, .error .notFound)
  | some folder =>
    if folder.Enabled = enabled then finishView s userID folderID
    else
      let folder := { folder with Enabled := enabled }
      let s1 : ServiceState := { s with folders := updateFolder s.folders folder }
      if enabled then
        match startRunner env.startOk env.startErrMsg env.rid s1 folder with
        | (s2, .ok _) => finishView s2 userID folderID
        | (s2, .error e) =>
          let folder := { folder with Enabled := false }
          ({ s2 with folders := updateFolder s2.folders folder }, .error (.startFailed e))
      else
        finishView (stopRunner s1 folderID) userID folderID

/-- `Service.DeleteUserFolder` from the source. -/
def DeleteUserFolder (s : ServiceState) (userID folderID : Nat) :
    ServiceState × Except ServiceError Unit :=
  match findByUserAndID s.folders userID folderID with
  | none => (s, .error .notFound)
  | some _ =>
    let s1 := clearStatus (stopRunner s folderID) folderID
    ({ s1 with folders := deleteFolder s1.folders folderID }, .ok ())

/-- `Service.ListUserFolders` from the source: the user's rows, each merged
with its runtime status, a disabled row's `Active` forced off. -/
def ListUserFolders (s : ServiceState) (userID : Nat) : List FolderView :=
  (FindByUser s.folders userID).map (fun folder =>
    let status := getStatus s folder.ID
    let status := if folder.Enabled then status else { status with Active := false }
    ⟨folder, status.Active, status.LastRuntimeError,
     status.LastImportedAt, status.LastImportedFile⟩)

def samplePolls : Nat → StatResult := fun _ => .file 7 11

def vanishPolls : Nat → StatResult := fun _ => .notExist

def growingPolls : Nat → StatResult := fun i => .file (i : Int) 0

def sampleCfg : Config := ⟨"/data/uploads"⟩

def sampleEnv : ImportEnv :=
  ⟨.file 7 11, true, "job-1", .ok, true, none, fun _ => none, none, none, true, true, true, 0⟩

def sampleWorld : World := ⟨[], [], [], []⟩

def samplePath : String := "/w/a.mp3"

def dupWorld : World := ⟨[], [], [], [(samplePath, ⟨7, 11⟩)]⟩

def emptyService : ServiceState := ⟨[], [], []⟩

def sampleNormPath : String := "/music"

def sampleStartErr : String := "failed to create filesystem watcher"

def failCreateEnv : CreateEnv := ⟨.ok sampleNormPath, 1, false, sampleStartErr, 0⟩

def sampleFolder : WatchedFolder := ⟨1, 7, sampleNormPath, false, true⟩

def oneFolderService : ServiceState := ⟨[sampleFolder], [], []⟩

def okCreateEnv : CreateEnv := ⟨.ok sampleNormPath, 2, true, sampleStartErr, 1⟩

def sampleRunner : folderRunner := ⟨sampleFolder, 0, false⟩

def runningService : ServiceState :=
  ⟨[sampleFolder], [(1, sampleRunner)], [(1, ⟨true, "", none, ""⟩)]⟩

def sampleBoom : String := "boom"

def historyStatus : runtimeStatus := ⟨true, sampleBoom, some 5, samplePath⟩

def toggleService : ServiceState :=
  ⟨[sampleFolder], [(1, sampleRunner)], [(1, historyStatus)]⟩

def okToggleEnv : ToggleEnv := ⟨true, sampleStartErr, 3⟩

/-- A single-folder registry holding an arbitrary status for folder 1, used
to trace an enable/disable toggle against arbitrary history. -/
def mkToggleState (st : runtimeStatus) : ServiceState :=
  ⟨[sampleFolder], [(1, sampleRunner)], [(1, st)]⟩

def otherPath : String := "/other"

def disabledFolder : WatchedFolder := ⟨2, 7, otherPath, false, false⟩

def listService : ServiceState :=
  ⟨[disabledFolder], [], [(2, ⟨true, "", none, ""⟩)]⟩

def sampleUser : User := ⟨true, some 4⟩

def sampleProfile : TranscriptionProfile := ⟨4, ⟨true, 9⟩⟩

def jobOne : String := "job-1"

def sampleJob : TranscriptionJob := ⟨jobOne, samplePath, .uploaded, samplePath, defaultParams, false⟩

def enqueueFailEnv : ImportEnv :=
  ⟨.file 7 11, true, jobOne, .ok, true, some sampleUser,
   fun pid => if pid = 4 then some sampleProfile else none, none, none, true, true, false, 0⟩

def createEvent : FsEvent := ⟨samplePath, true, false⟩

def unsupportedEvent : FsEvent := ⟨otherPath, true, true⟩

def createFailEnv : ImportEnv :=
  ⟨.file 7 11, true, jobOne, .ok, false, none, fun _ => none, none, none, true, true, true, 0⟩

/-! ## Theorems -/

theorem waitAux_eq_specAux (polls : Nat → StatResult) :
    ∀ (fuel i : Nat) (s m : Int) (c : Nat),
      waitAux polls fuel i s m c = stabilitySpecAux polls fuel i (some (s, m)) c := by
  intro fuel
  induction fuel with
  | zero => intro i s m c; rfl
  | succ fuel ih =>
    intro i s m c
    simp only [waitAux, stabilitySpecAux]
    cases polls i with
    | notExist => rfl
    | otherError => rfl
    | dir => rfl
    | file size modUnix =>
      simp only [Option.some.injEq, Prod.mk.injEq]
      by_cases h : size = s ∧ modUnix = m
      · have h' : s = size ∧ m = modUnix := ⟨h.1.symm, h.2.symm⟩
        rw [if_pos h, if_pos h']
        split
        · rfl
        · exact ih (i + 1) size modUnix (c + 1)
      · have h' : ¬(s = size ∧ m = modUnix) := fun hc => h ⟨hc.1.symm, hc.2.symm⟩
        rw [if_neg h, if_neg h']
        split
        · rfl
        · exact ih (i + 1) size modUnix 0

/-- C1: the stability prober polls size and modification time at a fixed
1-second interval, counts consecutive unchanged polls, returns the `(size,
modTime)` signature exactly when the count reaches 3 with size at least 1
byte (the spec-side algorithm `stabilitySpec`), times out after
`stabilityChecks + 2 = 5` polls, and reports a not-found condition distinct
from timeout which `processCandidate` silently skips. -/
theorem waitForStableFile_matches_spec :
    (stabilityIntervalSeconds = 1 ∧ stabilityChecks = 3 ∧
      minimumAudioBytes = 1 ∧ stabilityChecks + 2 = 5) ∧
    (∀ polls : Nat → StatResult,
      (∀ s m : Int, polls 0 = .file s m → 0 ≤ s) →
      waitForStableFile polls = stabilitySpec polls) ∧
    (∀ (polls : Nat → StatResult) (s m : Int),
      minimumAudioBytes ≤ s → (∀ k, k ≤ 3 → polls k = .file s m) →
      waitForStableFile polls = .ok ⟨s, m⟩) ∧
    (waitForStableFile growingPolls = .error .timeout) ∧
    (StableError.notFound ≠ StableError.timeout) ∧
    (∀ (polls : Nat → StatResult) (cfg : Config) (env : ImportEnv) (folderID : Nat)
        (path : String) (w : World),
      waitForStableFile polls = .error .notFound →
      processCandidate polls cfg env folderID path w = w) := by
  refine ⟨⟨rfl, rfl, rfl, rfl⟩, ?_, ?_, ?_, ?_, ?_⟩
  · intro polls h
    show waitAux polls 5 0 (-1) (-1) 0 = stabilitySpecAux polls 5 0 none 0
    cases hp : polls 0 with
    | notExist => simp [waitAux, stabilitySpecAux, hp]
    | otherError => simp [waitAux, stabilitySpecAux, hp]
    | dir => simp [waitAux, stabilitySpecAux, hp]
    | file s m =>
      have hs : ¬(s = -1 ∧ m = -1) := by
        rintro ⟨rfl, -⟩
        have := h (-1) m hp
        omega
      have hnone : ¬((none : Option (Int × Int)) = some (s, m)) := by simp
      have hno : ¬(0 ≥ stabilityChecks ∧ s ≥ minimumAudioBytes) := by
        rintro ⟨h3, -⟩
        simp [stabilityChecks] at h3
      simp only [waitAux, stabilitySpecAux, hp]
      rw [if_neg hs, if_neg hnone, if_neg hno, if_neg hno]
      exact waitAux_eq_specAux polls 4 1 s m 0
  · intro polls s m hs hk
    have h0 := hk 0 (by omega)
    have h1 := hk 1 (by omega)
    have h2 := hk 2 (by omega)
    have h3 := hk 3 (by omega)
    have hge : (1 : Int) ≤ s := by simpa [minimumAudioBytes] using hs
    have hns : ¬(s = -1 ∧ m = -1) := by
      rintro ⟨rfl, -⟩
      omega
    show waitAux polls 5 0 (-1) (-1) 0 = .ok ⟨s, m⟩
    simp [waitAux, h0, h1, h2, h3, hns, hge, stabilityChecks, minimumAudioBytes]
  · rfl
  · intro h
    exact StableError.noConfusion h
  · intro polls cfg env folderID path w h
    simp [processCandidate, h]

theorem waitForStableFile_matches_spec_witness :
    waitForStableFile samplePolls = stabilitySpec samplePolls ∧
    waitForStableFile samplePolls = .ok ⟨7, 11⟩ ∧
    processCandidate vanishPolls sampleCfg sampleEnv 1 samplePath sampleWorld = sampleWorld :=
  ⟨waitForStableFile_matches_spec.2.1 samplePolls (fun s m h => by
      simp [samplePolls] at h
      omega),
   waitForStableFile_matches_spec.2.2.1 samplePolls 7 11 (by decide)
      (fun k _ => rfl),
   waitForStableFile_matches_spec.2.2.2.2.2 vanishPolls sampleCfg sampleEnv 1
      samplePath sampleWorld rfl⟩

theorem alookup_eq_none_of_fresh {κ α : Type} [DecidableEq κ]
    (l : List (κ × α)) (k : κ) (h : ∀ p ∈ l, p.1 ≠ k) : alookup l k = none := by
  unfold alookup
  rw [List.find?_eq_none.mpr]
  · rfl
  · intro p hp
    simp [h p hp]

theorem aset_fresh {κ α : Type} [DecidableEq κ]
    (l : List (κ × α)) (k : κ) (v : α) (h : ∀ p ∈ l, p.1 ≠ k) :
    aset l k v = l ++ [(k, v)] := by
  unfold aset
  rw [List.find?_eq_none.mpr]
  · rfl
  · intro p hp
    simp [h p hp]

theorem aremove_append_fresh {κ α : Type} [DecidableEq κ]
    (l : List (κ × α)) (k : κ) (v : α) (h : ∀ p ∈ l, p.1 ≠ k) :
    aremove (l ++ [(k, v)]) k = l := by
  unfold aremove
  rw [List.filter_append]
  have h1 : l.filter (fun p => p.1 ≠ k) = l := by
    rw [List.filter_eq_self]
    intro p hp
    simp [h p hp]
  have h2 : [(k, v)].filter (fun p : κ × α => p.1 ≠ k) = [] := by simp
  rw [h1, h2, List.append_nil]

theorem alookup_aremove_self {κ α : Type} [DecidableEq κ]
    (l : List (κ × α)) (k : κ) : alookup (aremove l k) k = none := by
  apply alookup_eq_none_of_fresh
  intro p hp
  have h := List.mem_filter.mp hp
  simpa using h.2

theorem filter_ne_id_of_fresh (l : List WatchedFolder) (k : Nat)
    (h : ∀ f ∈ l, f.ID ≠ k) : l.filter (fun f => f.ID ≠ k) = l := by
  rw [List.filter_eq_self]
  intro f hf
  simp [h f hf]

/-- C2: a stabilized file whose signature equals the signature already
recorded as imported for the same path is skipped entirely: `importFile` is
never consulted (the conclusion holds for every import oracle) and the
runner's and service's state is returned unchanged. -/
theorem processCandidate_skips_duplicate_signature
    (polls : Nat → StatResult) (cfg : Config) (env : ImportEnv)
    (folderID : Nat) (path : String) (w : World) (signature : fileSignature)
    (hstable : waitForStableFile polls = .ok signature)
    (hdup : alookup w.imported path = some signature) :
    processCandidate polls cfg env folderID path w = w := by
  simp [processCandidate, hstable, wasImported, hdup]

theorem processCandidate_skips_duplicate_signature_witness :
    processCandidate samplePolls sampleCfg sampleEnv 1 samplePath dupWorld = dupWorld :=
  processCandidate_skips_duplicate_signature samplePolls sampleCfg sampleEnv 1 samplePath
    dupWorld ⟨7, 11⟩ rfl rfl

/-- C3: when `CreateUserFolder` is called with `enabled = true` and the runner
fails to start, the freshly persisted row is deleted again, the runtime
status entry is cleared, and the start error is surfaced — the final state is
exactly the initial one. -/
theorem createUserFolder_rolls_back_on_start_failure
    (env : CreateEnv) (s : ServiceState) (userID : Nat) (recursive : Bool)
    (np : String)
    (hnorm : env.normResult = .ok np)
    (hnodup : findByUserAndPath s.folders userID np = none)
    (hstart : env.startOk = false)
    (hfreshF : ∀ f ∈ s.folders, f.ID ≠ env.newID)
    (hfreshR : ∀ p ∈ s.runners, p.1 ≠ env.newID)
    (hfreshS : ∀ p ∈ s.statuses, p.1 ≠ env.newID) :
    CreateUserFolder env s userID recursive true =
      (s, .error (.startFailed env.startErrMsg)) := by
  obtain ⟨folders, runners, statuses⟩ := s
  simp only [CreateUserFolder, hnorm, hnodup, startRunner, hstart]
  rw [alookup_eq_none_of_fresh runners env.newID hfreshR]
  simp only [Bool.false_eq_true, if_false, clearStatus, deleteFolder]
  rw [aset_fresh statuses env.newID _ hfreshS]
  rw [aremove_append_fresh statuses env.newID _ hfreshS]
  rw [List.filter_append, filter_ne_id_of_fresh folders env.newID hfreshF]
  simp

theorem createUserFolder_rolls_back_on_start_failure_witness :
    CreateUserFolder failCreateEnv emptyService 7 false true =
      (emptyService, .error (.startFailed sampleStartErr)) :=
  createUserFolder_rolls_back_on_start_failure failCreateEnv emptyService 7 false
    sampleNormPath rfl rfl rfl (by simp [emptyService]) (by simp [emptyService])
    (by simp [emptyService])

theorem finishView_ne_alreadyExists (s : ServiceState) (u id : Nat) :
    (finishView s u id).2 ≠ .error .alreadyExists := by
  unfold finishView
  cases getFolderView s u id with
  | some v => simp
  | none => simp

/-- C4: `CreateUserFolder` fails with `AlreadyExists` exactly when the same
user already watches the normalized path; a different user creating a folder
at the same path succeeds (the uniqueness check is per-owner). -/
theorem createUserFolder_alreadyExists_iff_same_user :
    (∀ (env : CreateEnv) (s : ServiceState) (userID : Nat)
        (recursive enabled : Bool) (np : String),
      env.normResult = .ok np →
      ((CreateUserFolder env s userID recursive enabled).2 = .error .alreadyExists ↔
        ∃ f ∈ s.folders, f.UserID = userID ∧ f.Path = np)) ∧
    (∀ (env : CreateEnv) (s : ServiceState) (u1 u2 : Nat) (recursive : Bool) (np : String),
      env.normResult = .ok np → u1 ≠ u2 →
      (∀ f ∈ s.folders, f.Path = np → f.UserID = u1) →
      ∃ v, (CreateUserFolder env s u2 recursive false).2 = .ok v) := by
  constructor
  · intro env s userID recursive enabled np hnorm
    cases hfind : findByUserAndPath s.folders userID np with
    | some f =>
      have hmem := List.mem_of_find?_eq_some hfind
      have hp := List.find?_some hfind
      simp only [decide_eq_true_eq] at hp
      simp only [CreateUserFolder, hnorm, hfind]
      exact iff_of_true trivial ⟨f, hmem, hp⟩
    | none =>
      simp only [CreateUserFolder, hnorm, hfind]
      constructor
      · intro hres
        exfalso
        revert hres
        split
        · split
          · exact fun h => finishView_ne_alreadyExists _ _ _ h
          · simp
        · exact fun h => finishView_ne_alreadyExists _ _ _ h
      · rintro ⟨f, hf, hu, hp⟩
        have hnone := List.find?_eq_none.mp hfind f hf
        simp [hu, hp] at hnone
  · intro env s u1 u2 recursive np hnorm hne hown
    simp only [CreateUserFolder, hnorm]
    have hfind : findByUserAndPath s.folders u2 np = none := by
      apply List.find?_eq_none.mpr
      intro f hf
      simp only [decide_eq_true_eq, not_and]
      intro hu hp
      exact hne ((hown f hf hp).symm.trans hu)
    rw [hfind]
    simp only [Bool.false_eq_true, if_false]
    unfold finishView getFolderView
    have hsome : (findByUserAndID (s.folders ++ [⟨env.newID, u2, np, recursive, false⟩])
        u2 env.newID).isSome := by
      apply List.find?_isSome.mpr
      refine ⟨⟨env.newID, u2, np, recursive, false⟩, ?_, by simp⟩
      simp
    obtain ⟨folder, hfv⟩ := Option.isSome_iff_exists.mp hsome
    rw [hfv]
    exact ⟨_, rfl⟩

theorem createUserFolder_alreadyExists_iff_same_user_witness :
    ((CreateUserFolder okCreateEnv oneFolderService 7 false true).2 =
        .error .alreadyExists ↔
      ∃ f ∈ oneFolderService.folders, f.UserID = 7 ∧ f.Path = sampleNormPath) ∧
    (∃ v, (CreateUserFolder okCreateEnv oneFolderService 8 false false).2 = .ok v) :=
  ⟨createUserFolder_alreadyExists_iff_same_user.1 okCreateEnv oneFolderService 7 false true
      sampleNormPath rfl,
   createUserFolder_alreadyExists_iff_same_user.2 okCreateEnv oneFolderService 7 8 false
      sampleNormPath rfl (by decide) (by
        intro f hf _
        simp only [oneFolderService] at hf
        simp at hf
        simp [hf, sampleFolder])⟩

/-- C5: `startRunner` is idempotent.  When a runner already exists for the
folder id, the call only flips that folder's status to active and reports
success, leaving the runner map (and hence the existing watch) untouched; and
when a concurrent start races past the initial check, the store step finds
the winner in the map, keeps the registry unchanged, and stops the losing
runner instead of storing it. -/
theorem startRunner_idempotent :
    (∀ (startOk : Bool) (errMsg : String) (rid : Nat) (s : ServiceState)
        (folder : WatchedFolder) (r : folderRunner),
      alookup s.runners folder.ID = some r →
      startRunner startOk errMsg rid s folder =
        ({ s with statuses := (aset s.statuses folder.ID { getStatus s folder.ID with Active := true }) }, .ok ())) ∧
    (∀ (s : ServiceState) (runner : folderRunner) (r : folderRunner),
      alookup s.runners runner.folder.ID = some r →
      startRunnerFinish s runner = (s, { runner with stopped := true })) := by
  constructor
  · intro startOk errMsg rid s folder r h
    simp [startRunner, h]
  · intro s runner r h
    simp [startRunnerFinish, h]

theorem startRunner_idempotent_witness :
    startRunner true sampleStartErr 5 runningService sampleFolder =
      ({ runningService with statuses := (aset runningService.statuses sampleFolder.ID { getStatus runningService sampleFolder.ID with Active := true }) }, .ok ()) ∧
    startRunnerFinish runningService ⟨sampleFolder, 5, false⟩ =
      (runningService, ⟨sampleFolder, 5, true⟩) :=
  ⟨startRunner_idempotent.1 true sampleStartErr 5 runningService sampleFolder sampleRunner rfl,
   startRunner_idempotent.2 runningService ⟨sampleFolder, 5, false⟩ sampleRunner rfl⟩

/-- C6 counterexample: with a stored runtime error "boom" on folder 1,
disabling and then successfully re-enabling the folder leaves
`LastRuntimeError` empty rather than unchanged — the successful start clears
the error field, so not only `active` flips across the toggle. -/
theorem toggle_changes_lastRuntimeError :
    (getStatus (SetUserFolderEnabled okToggleEnv
        (SetUserFolderEnabled okToggleEnv toggleService 7 1 false).1 7 1 true).1 1).LastRuntimeError ≠
      (getStatus toggleService 1).LastRuntimeError := by
  decide

/-- C6 (amended): a folder's RuntimeStatus is created lazily (a read of an
absent id yields the zero value), is cleared when the folder is deleted, and
across a disable followed by a successful re-enable the import history
(`LastImportedAt`, `LastImportedFile`) survives unchanged while `Active` is
switched back on and `LastRuntimeError` is reset to the empty string by the
successful start. -/
theorem runtimeStatus_lifecycle :
    (∀ (s : ServiceState) (id : Nat), alookup s.statuses id = none →
      getStatus s id = emptyStatus) ∧
    (∀ (s : ServiceState) (u id : Nat), (DeleteUserFolder s u id).2 = .ok () →
      alookup (DeleteUserFolder s u id).1.statuses id = none) ∧
    (∀ (st : runtimeStatus) (rid : Nat) (msg : String),
      getStatus (SetUserFolderEnabled ⟨true, msg, rid⟩
          (SetUserFolderEnabled ⟨true, msg, rid⟩ (mkToggleState st) 7 1 false).1 7 1 true).1 1 =
        { st with Active := true, LastRuntimeError := "" }) := by
  refine ⟨?_, ?_, ?_⟩
  · intro s id h
    simp [getStatus, h]
  · intro s u id hok
    cases hfind : findByUserAndID s.folders u id with
    | none =>
      unfold DeleteUserFolder at hok
      rw [hfind] at hok
      simp at hok
    | some folder =>
      unfold DeleteUserFolder
      rw [hfind]
      simp only [clearStatus, stopRunner]
      exact alookup_aremove_self _ id
  · intro st rid msg
    simp [SetUserFolderEnabled, mkToggleState, sampleFolder, sampleRunner, startRunner,
      startRunnerFinish, stopRunner, finishView, getFolderView, getStatus, clearStatus,
      updateFolder, findByUserAndID, alookup, aset, aremove, emptyStatus]

theorem runtimeStatus_lifecycle_witness :
    getStatus emptyService 9 = emptyStatus ∧
    alookup (DeleteUserFolder runningService 7 1).1.statuses 1 = none :=
  ⟨runtimeStatus_lifecycle.1 emptyService 9 rfl,
   runtimeStatus_lifecycle.2.1 runningService 7 1 rfl⟩

/-- C7: `ListUserFolders` returns a view for every folder owned by the user
(and only those), each merged with its current runtime status; a disabled
folder's `Active` is forced to false regardless of the stored status, while
an enabled folder's `Active` and the error/import-history fields come
straight from the status map. -/
theorem listUserFolders_merges_status :
    (∀ (s : ServiceState) (userID : Nat) (f : WatchedFolder),
      f ∈ s.folders → f.UserID = userID →
      ∃ v ∈ ListUserFolders s userID, v.Folder = f) ∧
    (∀ (s : ServiceState) (userID : Nat) (v : FolderView),
      v ∈ ListUserFolders s userID →
      v.Folder ∈ s.folders ∧ v.Folder.UserID = userID ∧
      v.LastRuntimeError = (getStatus s v.Folder.ID).LastRuntimeError ∧
      v.LastImportedAt = (getStatus s v.Folder.ID).LastImportedAt ∧
      v.LastImportedFile = (getStatus s v.Folder.ID).LastImportedFile ∧
      (v.Folder.Enabled = false → v.Active = false) ∧
      (v.Folder.Enabled = true → v.Active = (getStatus s v.Folder.ID).Active)) := by
  constructor
  · intro s userID f hf hu
    refine ⟨_, List.mem_map_of_mem _ ?_, rfl⟩
    unfold FindByUser
    rw [(List.perm_insertionSort _ _).mem_iff]
    exact List.mem_filter.mpr ⟨hf, by simp [hu]⟩
  · intro s userID v hv
    unfold ListUserFolders at hv
    obtain ⟨f, hfmem, rfl⟩ := List.mem_map.mp hv
    have hf : f ∈ s.folders ∧ f.UserID = userID := by
      unfold FindByUser at hfmem
      rw [(List.perm_insertionSort _ _).mem_iff] at hfmem
      have hm := List.mem_filter.mp hfmem
      exact ⟨hm.1, by simpa using hm.2⟩
    cases he : f.Enabled with
    | false => simp [he, hf.1, hf.2]
    | true => simp [he, hf.1, hf.2]

theorem listUserFolders_merges_status_witness :
    (∃ v ∈ ListUserFolders listService 7, v.Folder = disabledFolder) ∧
    ((⟨disabledFolder, false, "", none, ""⟩ : FolderView).Folder ∈ listService.folders ∧
      (⟨disabledFolder, false, "", none, ""⟩ : FolderView).Folder.UserID = 7 ∧
      (⟨disabledFolder, false, "", none, ""⟩ : FolderView).LastRuntimeError =
        (getStatus listService disabledFolder.ID).LastRuntimeError ∧
      (⟨disabledFolder, false, "", none, ""⟩ : FolderView).LastImportedAt =
        (getStatus listService disabledFolder.ID).LastImportedAt ∧
      (⟨disabledFolder, false, "", none, ""⟩ : FolderView).LastImportedFile =
        (getStatus listService disabledFolder.ID).LastImportedFile ∧
      (disabledFolder.Enabled = false →
        (⟨disabledFolder, false, "", none, ""⟩ : FolderView).Active = false) ∧
      (disabledFolder.Enabled = true →
        (⟨disabledFolder, false, "", none, ""⟩ : FolderView).Active =
          (getStatus listService disabledFolder.ID).Active)) :=
  ⟨listUserFolders_merges_status.1 listService 7 disabledFolder (by decide) rfl,
   listUserFolders_merges_status.2 listService 7 ⟨disabledFolder, false, "", none, ""⟩ (by decide)⟩

theorem updateJob_mem_same_id (jobs : List TranscriptionJob) (job : TranscriptionJob) :
    ∀ j ∈ updateJob jobs job, j.ID = job.ID → j = job := by
  intro j hj hid
  unfold updateJob at hj
  obtain ⟨x, _, rfl⟩ := List.mem_map.mp hj
  by_cases h : x.ID = job.ID
  · simp [h]
  · simp only [if_neg h]
    simp only [if_neg h] at hid
    exact absurd hid h

/-- C8: when auto-transcription is triggered (user found with the flag on, a
profile resolved, the pending write persisted) and handing the job to the
task queue fails, the job's status is rolled back from pending to uploaded
and persisted: the returned job value is uploaded and every stored record
with the job's id is uploaded, so no record is left pending without a queue
entry. -/
theorem autoTranscription_enqueue_failure_rolls_back
    (env : ImportEnv) (jobs : List TranscriptionJob) (job : TranscriptionJob)
    (user : User) (pid : Nat) (profile : TranscriptionProfile)
    (huser : env.userResult = some user)
    (hauto : user.AutoTranscriptionEnabled = true)
    (hpid : user.DefaultProfileID = some pid)
    (hprof : env.profileByID pid = some profile)
    (hupd : env.updateOk = true)
    (henq : env.enqueueOk = false)
    (hroll : env.rollbackUpdateOk = true) :
    (maybeQueueAutoTranscription env jobs job).2.Status = .uploaded ∧
    ∀ j ∈ (maybeQueueAutoTranscription env jobs job).1,
      j.ID = job.ID → j.Status = .uploaded := by
  have hres : maybeQueueAutoTranscription env jobs job =
      (updateJob (updateJob jobs
          { job with Parameters := profile.Parameters,
                     Diarization := profile.Parameters.Diarize, Status := .pending })
        { job with Parameters := profile.Parameters,
                   Diarization := profile.Parameters.Diarize, Status := .uploaded },
       { job with Parameters := profile.Parameters,
                  Diarization := profile.Parameters.Diarize, Status := .uploaded }) := by
    simp [maybeQueueAutoTranscription, huser, hauto, hpid, hprof, hupd, henq, hroll]
  rw [hres]
  refine ⟨rfl, ?_⟩
  intro j hj hid
  have hj' := updateJob_mem_same_id _ _ j hj hid
  rw [hj']

theorem autoTranscription_enqueue_failure_rolls_back_witness :
    (maybeQueueAutoTranscription enqueueFailEnv [sampleJob] sampleJob).2.Status = .uploaded :=
  (autoTranscription_enqueue_failure_rolls_back enqueueFailEnv [sampleJob] sampleJob
    sampleUser 4 sampleProfile rfl rfl rfl rfl rfl rfl rfl).1

theorem find?_map_set_self {κ α : Type} [DecidableEq κ] (l : List (κ × α)) (k : κ) (v : α)
    (h : (l.find? (fun p => p.1 = k)).isSome) :
    (l.map (fun p => if p.1 = k then (k, v) else p)).find? (fun p => p.1 = k) = some (k, v) := by
  induction l with
  | nil => simp at h
  | cons p l ih =>
    by_cases hp : p.1 = k
    · rw [List.map_cons, if_pos hp, List.find?_cons_of_pos _ (by simp)]
    · have h' : (l.find? (fun q => q.1 = k)).isSome := by
        rw [List.find?_cons_of_neg _ (by simp [hp])] at h
        exact h
      rw [List.map_cons, if_neg hp, List.find?_cons_of_neg _ (by simp [hp])]
      exact ih h'

theorem find?_map_set_other {κ α : Type} [DecidableEq κ] (l : List (κ × α)) (k q : κ) (v : α)
    (hq : q ≠ k) :
    (l.map (fun p => if p.1 = k then (k, v) else p)).find? (fun p => p.1 = q) =
      l.find? (fun p => p.1 = q) := by
  induction l with
  | nil => rfl
  | cons p l ih =>
    by_cases hp : p.1 = k
    · have hpq : ¬(p.1 = q) := fun hc => hq (hc.symm.trans hp)
      rw [List.map_cons, if_pos hp,
        List.find?_cons_of_neg _ (by simp; exact fun hc => hq hc.symm),
        List.find?_cons_of_neg _ (by simp [hpq])]
      exact ih
    · rw [List.map_cons, if_neg hp]
      by_cases hpq : p.1 = q
      · rw [List.find?_cons_of_pos _ (by simp [hpq]), List.find?_cons_of_pos _ (by simp [hpq])]
      · rw [List.find?_cons_of_neg _ (by simp [hpq]), List.find?_cons_of_neg _ (by simp [hpq])]
        exact ih

theorem alookup_aset_self {κ α : Type} [DecidableEq κ] (l : List (κ × α)) (k : κ) (v : α) :
    alookup (aset l k v) k = some v := by
  unfold alookup aset
  by_cases h : (l.find? (fun p => p.1 = k)).isSome
  · rw [if_pos h, find?_map_set_self l k v h]
    rfl
  · rw [if_neg h, List.find?_append, Option.not_isSome_iff_eq_none.mp h]
    simp

theorem alookup_aset_other {κ α : Type} [DecidableEq κ] (l : List (κ × α)) (k q : κ) (v : α)
    (hq : q ≠ k) : alookup (aset l k v) q = alookup l q := by
  unfold alookup aset
  by_cases h : (l.find? (fun p => p.1 = k)).isSome
  · rw [if_pos h, find?_map_set_other l k q v hq]
  · rw [if_neg h, List.find?_append]
    have hsingle : ([(k, v)].find? (fun p => p.1 = q)) = none := by
      simp
      exact fun hc => hq hc.symm
    rw [hsingle]
    simp

/-- C9: a file create/write event schedules a debounced import — replacing
any pending timer for the same path — exactly when the path's extension,
lowered, is one of the supported media extensions; a path with any other
extension never schedules an import, whatever the event bits or stat
outcome. -/
theorem handleEvent_schedules_iff_watchable :
    (∀ (recursive : Bool) (stat : StatInfo) (e : FsEvent),
      stat ≠ .statDir →
      (handleEvent recursive stat e = .schedule ↔
        ((e.isCreate = true ∨ e.isWrite = true) ∧
          stringToLower (filepathExt e.name) ∈ watchableExtensions))) ∧
    (∀ (recursive : Bool) (stat : StatInfo) (e : FsEvent),
      stringToLower (filepathExt e.name) ∉ watchableExtensions →
      handleEvent recursive stat e ≠ .schedule) ∧
    (∀ (timers : List (String × Nat)) (path : String) (newTimer : Nat),
      alookup (scheduleImport timers path newTimer) path = some newTimer ∧
      ∀ q, q ≠ path → alookup (scheduleImport timers path newTimer) q = alookup timers q) := by
  refine ⟨?_, ?_, ?_⟩
  · intro recursive stat e hstat
    cases hc : e.isCreate <;> cases hw : e.isWrite <;>
      cases hwa : isWatchableAudioFile e.name <;>
      simp_all [handleEvent, isWatchableAudioFile]
  · intro recursive stat e hna
    have hwa : isWatchableAudioFile e.name = false := by
      simp [isWatchableAudioFile]
      exact hna
    simp only [handleEvent, hwa]
    split
    · simp
    · split <;> simp
  · intro timers path newTimer
    exact ⟨alookup_aset_self _ _ _,
      fun q hq => alookup_aset_other _ _ _ _ hq⟩

theorem handleEvent_schedules_iff_watchable_witness :
    (handleEvent false .statFile createEvent = .schedule ↔
      ((createEvent.isCreate = true ∨ createEvent.isWrite = true) ∧
        stringToLower (filepathExt createEvent.name) ∈ watchableExtensions)) ∧
    handleEvent true .statErr unsupportedEvent ≠ .schedule :=
  ⟨handleEvent_schedules_iff_watchable.1 false .statFile createEvent (by decide),
   handleEvent_schedules_iff_watchable.2.1 true .statErr unsupportedEvent (by decide)⟩

/-- C10: if `importFile` has copied the source into the upload directory and
the subsequent job-record creation fails, the copied destination file is
removed before the error is returned — the world (upload directory contents,
job records, statuses, imported map) is exactly as before the call, so a
failed import leaves neither a job record nor an orphan file. -/
theorem importFile_cleans_up_on_create_failure
    (cfg : Config) (env : ImportEnv) (w : World) (sourcePath : String)
    (sz mu : Int)
    (hstat : env.statSource = .file sz mu)
    (hwatch : isWatchableAudioFile sourcePath = true)
    (hmkdir : env.mkdirOk = true)
    (hcopy : env.copyResult = .ok)
    (hcreate : env.createOk = false)
    (hfresh : (cfg.UploadDir ++ "/" ++ env.jobID ++ stringToLower (filepathExt sourcePath)) ∉
      w.uploadFiles) :
    importFile cfg env w sourcePath = (.error msgCreateJobFailed, w) := by
  obtain ⟨files, jobs, statuses, imported⟩ := w
  simp only [importFile, hstat, hwatch, hmkdir, hcopy, hcreate, Bool.not_true, Bool.not_false,
    Bool.false_eq_true, if_false, if_true]
  rw [List.erase_append_right _ hfresh, List.erase_cons_head, List.append_nil]

theorem importFile_cleans_up_on_create_failure_witness :
    importFile sampleCfg createFailEnv sampleWorld samplePath =
      (.error msgCreateJobFailed, sampleWorld) :=
  importFile_cleans_up_on_create_failure sampleCfg createFailEnv sampleWorld samplePath 7 11
    rfl (by decide) rfl rfl rfl (by simp [sampleWorld])
